import Mathlib

/-!
Formal model of the self-healing product-parser repository.

The development shallowly embeds the Python sources:
  - `parser_engine/scraper.py` (extraction engine, fetcher, category scan),
  - `parser_engine/self_heal.py` (self-heal coordinator),
  - `parser_engine/rule_detector_ai.py` (heuristic rule repair),
  - `parser_engine/category_ai.py` (heuristic category tree),
  - `parser_engine/matcher_ai.py` (sequence-ratio similarity, difflib),
  - `parser_engine/fallback_logic.py` (category hierarchy grouping),
  - `parserai/core.py` (document tree, selector matcher, field scorer,
    structural self-heal, token similarity).

External libraries are modelled at their interface: the selectolax CSS
engine is an abstract total function from a selector string to the list
of matching nodes (carried by the document value), `urllib.parse.urljoin`
is an abstract function argument, and the network is a pair of prepared
HTTP responses consumed by the bounded retry loop.  Python floats are
idealised as rationals; `str.isdigit`, `str.lower` and whitespace
splitting are modelled on their ASCII behaviour.
-/

namespace PyStr

/-- Python-style truthiness defaulting used by `rules.get(k) or DEFAULT`:
an absent or empty string falls back to the default. -/
def orDefault (v : Option String) (d : String) : String :=
  match v with
  | none => d
  | some s => if s = "" then d else s

/-- Split a character list at every character satisfying `p`, keeping
empty pieces (the splitting behaviour of `str.split(sep)` and of the
library split functions, reimplemented structurally so that proofs can
evaluate it). -/
def splitPred (p : Char → Bool) : List Char → List (List Char)
  | [] => [[]]
  | c :: rest =>
    let r := splitPred p rest
    if p c then [] :: r
    else (c :: r.headD []) :: r.tail

/-- `s.split(sep)` for a one-character separator. -/
def splitOnChar (c : Char) (s : String) : List String :=
  (splitPred (fun x => x == c) s.toList).map String.mk

/-- `str.split()` with no argument: split on whitespace, dropping empty parts. -/
def pySplit (s : String) : List String :=
  ((splitPred Char.isWhitespace s.toList).map String.mk).filter (fun t => t ≠ "")

/-- `str.strip()` on a character list (ASCII whitespace model). -/
def stripL (cs : List Char) : List Char :=
  ((cs.dropWhile Char.isWhitespace).reverse.dropWhile Char.isWhitespace).reverse

/-- `str.strip()`. -/
def pyStrip (s : String) : String := String.mk (stripL s.toList)

/-- Split at the first occurrence of `sep` (`none` when absent). -/
def splitFirstOn (sep : List Char) : List Char → Option (List Char × List Char)
  | [] => none
  | c :: rest =>
    if sep.isPrefixOf (c :: rest) then some ([], (c :: rest).drop sep.length)
    else
      match splitFirstOn sep rest with
      | some (pre, post) => some (c :: pre, post)
      | none => none

/-- `sep.join(parts)`. -/
def joinSep (sep : String) : List String → String
  | [] => ""
  | [x] => x
  | x :: y :: xs => x ++ sep ++ joinSep sep (y :: xs)

/-- Lexicographic order on character lists by code point (the Python
string order). -/
def lexLe : List Char → List Char → Bool
  | [], _ => true
  | _ :: _, [] => false
  | a :: as, b :: bs => if a = b then lexLe as bs else decide (a.toNat < b.toNat)

/-- Python string `<=`. -/
def strLeB (a b : String) : Bool := lexLe a.toList b.toList

/-- Stable insertion of `x` after every already-placed element `y` with
`le y x`. -/
def insSorted {α : Type} (le : α → α → Bool) (x : α) : List α → List α
  | [] => [x]
  | y :: ys => if le y x then y :: insSorted le x ys else x :: y :: ys

/-- Stable sort (the result of Python `sorted` for a total preorder). -/
def stableSortBy {α : Type} (le : α → α → Bool) (l : List α) : List α :=
  l.foldl (fun acc x => insSorted le x acc) []

/-- `needle` occurs as a contiguous run inside `hay`. -/
def infixOf : List Char → List Char → Bool
  | needle, [] => needle.isEmpty
  | needle, c :: rest => needle.isPrefixOf (c :: rest) || infixOf needle rest

/-- Substring containment, `needle in hay` on Python strings. -/
def strContains (hay needle : String) : Bool :=
  infixOf needle.toList hay.toList

/-- `str.lower`, modelled on its ASCII behaviour, as a character list. -/
def pyLower (s : String) : List Char :=
  s.toList.map Char.toLower

/-- `str.isdigit` on a character list: nonempty and all digits (ASCII model). -/
def pyIsDigitL (cs : List Char) : Bool :=
  !cs.isEmpty && cs.all Char.isDigit

/-- Python dict assignment `d[k] = v` on an insertion-ordered association
list: replace the value in place when the key exists, append otherwise. -/
def dictSet (d : List (String × String)) (k v : String) : List (String × String) :=
  if d.any (fun p => p.1 = k) then
    d.map (fun p => if p.1 = k then (k, v) else p)
  else
    d ++ [(k, v)]

end PyStr

namespace Scraper

open PyStr

/-- A selectolax HTML node as used by `scraper.py`: its text content
(`node.text()`), its `href` attribute (`node.attributes.get("href")`),
and the engine answering sub-queries `node.css_first(selector)`.
The CSS engine itself is external (selectolax) and is modelled as a
total function carried by each node. -/
inductive HNode where
  | mk : String → Option String → (String → Option HNode) → HNode

def HNode.text : HNode → String
  | .mk t _ _ => t

def HNode.href : HNode → Option String
  | .mk _ h _ => h

def HNode.cssFirst : HNode → String → Option HNode
  | .mk _ _ f, sel => f sel

/-- A parsed selectolax document: `parser.css(selector)` as a total
function (valid selectors assumed; selector-syntax errors from the
engine are outside the model). -/
structure SDoc where
  css : String → List HNode

/-- `parser.css_first(selector)`: the first match of `parser.css`. -/
def SDoc.cssFirst (doc : SDoc) (sel : String) : Option HNode :=
  (doc.css sel).head?

/-- The rule dictionary of `scraper.py`: one optional selector string
per field, `None`-able exactly like `dict.get` on the Python side. -/
structure Rules where
  product_item : Option String
  name_selector : Option String
  price_selector : Option String
  url_selector : Option String
  category_link : Option String
deriving DecidableEq

/-- `DEFAULT_RULES` of `scraper.py`. -/
def DEFAULT_product_item : String := ".product-card,.product,.product-item"

def DEFAULT_name_selector : String := ".product-title,.title,h2,h3"

def DEFAULT_price_selector : String := ".price,.product-price"

def DEFAULT_url_selector : String := "a"

def DEFAULT_category_link : String := "nav a, .menu a, .catalog a"

/-- Effective container selector: `rules.get("product_item") or DEFAULT`. -/
def effItemSel (rules : Rules) : String :=
  orDefault rules.product_item DEFAULT_product_item

/-- Effective name selector alternatives (split on commas). -/
def effNameSels (rules : Rules) : List String :=
  splitOnChar ',' (orDefault rules.name_selector DEFAULT_name_selector)

/-- Effective price selector alternatives. -/
def effPriceSels (rules : Rules) : List String :=
  splitOnChar ',' (orDefault rules.price_selector DEFAULT_price_selector)

/-- Effective url selector alternatives. -/
def effUrlSels (rules : Rules) : List String :=
  splitOnChar ',' (orDefault rules.url_selector DEFAULT_url_selector)

/-- `_get_first_text`: first selector whose target exists and has truthy
text yields that text, stripped; otherwise the empty string. -/
def _get_first_text (node : HNode) : List String → String
  | [] => ""
  | sel :: rest =>
    match node.cssFirst sel with
    | some target =>
      if target.text ≠ "" then pyStrip target.text
      else _get_first_text node rest
    | none => _get_first_text node rest

/-- `_find_link`: first selector whose target carries a truthy `href`. -/
def _find_link (node : HNode) : List String → String
  | [] => ""
  | sel :: rest =>
    match node.cssFirst sel with
    | some target =>
      if (target.href.getD "") ≠ "" then target.href.getD ""
      else _find_link node rest
    | none => _find_link node rest

/-- Value of a run of decimal digits. -/
def digitsToNat (cs : List Char) : Nat :=
  cs.foldl (fun n c => n * 10 + (c.toNat - 48)) 0

/-- Python `float()` on a string made of decimal digits and periods:
defined (as a rational) when the string holds at least one digit, at
most one period, and nothing else; `none` models `ValueError`. -/
def pyFloat (cs : List Char) : Option ℚ :=
  if cs.all (fun c => c.isDigit || c = '.') && cs.count '.' ≤ 1 && cs.any Char.isDigit then
    match splitPred (fun x => x == '.') cs with
    | [ip] => some (digitsToNat ip)
    | [ip, fp] => some ((digitsToNat ip : ℚ) + (digitsToNat fp : ℚ) / 10 ^ fp.length)
    | _ => none
  else none

/-- `_parse_price`: keep digits, commas and periods, turn commas into
periods, then parse as a float; `none` on failure. -/
def _parse_price (text : String) : Option ℚ :=
  let normalized := text.toList.filter (fun c => c.isDigit || c = ',' || c = '.')
  let normalized := normalized.map (fun c => if c = ',' then '.' else c)
  pyFloat normalized

/-- `ParsedProduct` of `scraper.py` (price as an idealised rational). -/
structure ParsedProduct where
  name : String
  url : String
  price : Option ℚ
  raw_price : Option String
deriving DecidableEq

/-- The `ScraperError` conditions raised across `scraper.py`, split by
raise site: the two extraction-level conditions of `parse_products`
(spec names: NoContainerMatch, EmptyResult) and the fetch-level
conditions of `fetch_html` (spec name: FetchBlocked, plus plain HTTP
failures swallowed by the retry loop). -/
inductive ScraperError where
  | noContainerMatch
  | emptyResult
  | fetchBlockedStatus
  | fetchCaptcha
  | fetchHttpError
deriving DecidableEq

/-- The per-container record builder inside the `parse_products` loop:
`none` exactly when the resolved name is empty (record skipped). -/
def buildRecord (urljoin : String → String → String) (base_url : String)
    (nameSels priceSels urlSels : List String) (node : HNode) : Option ParsedProduct :=
  let name := _get_first_text node nameSels
  if name = "" then none
  else
    let price_text := _get_first_text node priceSels
    let price_value := _parse_price price_text
    let link := _find_link node urlSels
    let full_url := if link ≠ "" then urljoin base_url link else base_url
    some { name := name, url := full_url, price := price_value,
           raw_price := if price_text = "" then none else some price_text }

/-- `parse_products` of `scraper.py`.  `urljoin` abstracts
`urllib.parse.urljoin`. -/
def parse_products (urljoin : String → String → String) (doc : SDoc)
    (base_url : String) (rules : Rules) : Except ScraperError (List ParsedProduct) :=
  let nodes := doc.css (effItemSel rules)
  if nodes.isEmpty then .error .noContainerMatch
  else
    let products := nodes.filterMap
      (buildRecord urljoin base_url (effNameSels rules) (effPriceSels rules) (effUrlSels rules))
    if products.isEmpty then .error .emptyResult
    else .ok products

/-- `Category` of `scraper.py`. -/
structure Category where
  name : String
  url : String
deriving DecidableEq

/-- One anchor processed by the `parse_categories` inner loop: skip when
`href` is falsy or the stripped text is shorter than 3 characters,
otherwise record `links[full_url] = name`. -/
def catStep (urljoin : String → String → String) (base_url : String)
    (links : List (String × String)) (link : HNode) : List (String × String) :=
  let href := link.href.getD ""
  let name := pyStrip link.text
  if href = "" || name.length < 3 then links
  else dictSet links (urljoin base_url href) name

/-- The outer loop of `parse_categories`: comma-separated alternatives
of the category-link selector, stopping at the first alternative after
which the accumulated link dict is nonempty. -/
def catLoop (urljoin : String → String → String) (doc : SDoc) (base_url : String) :
    List String → List (String × String) → List (String × String)
  | [], links => links
  | rule :: rest, links =>
    let links := (doc.css (pyStrip rule)).foldl (catStep urljoin base_url) links
    if links.isEmpty then catLoop urljoin doc base_url rest links
    else links

/-- `parse_categories` of `scraper.py`. -/
def parse_categories (urljoin : String → String → String) (doc : SDoc)
    (base_url : String) (rules : Rules) : List Category :=
  let selector := orDefault rules.category_link DEFAULT_category_link
  let links := catLoop urljoin doc base_url (splitOnChar ',' selector) []
  links.map (fun p => { name := p.2, url := p.1 })

/-- One HTTP response as observed by the fetch loop. -/
structure HttpResponse where
  status : Nat
  text : String

/-- `_looks_like_captcha` of `scraper.py`. -/
def _looks_like_captcha (text : String) : Bool :=
  let lowered := String.mk (pyLower text)
  ["captcha", "cloudflare", "are you human", "підтвердьте"].any
    (fun marker => strContains lowered marker)

/-- One iteration of the `fetch_html` retry loop on a given response:
blocking statuses and bot-challenge pages set an error and continue,
`raise_for_status` turns other 4xx/5xx into an error, anything else
returns the body. -/
def fetchAttempt (r : HttpResponse) : Except ScraperError String :=
  if r.status = 403 || r.status = 429 || r.status = 503 then .error .fetchBlockedStatus
  else if _looks_like_captcha r.text then .error .fetchCaptcha
  else if 400 ≤ r.status then .error .fetchHttpError
  else .ok r.text

/-- `fetch_html` of `scraper.py`: two attempts with identical request
parameters; the error surfaced is the one recorded by the last attempt. -/
def fetch_html (r1 r2 : HttpResponse) : Except ScraperError String :=
  match fetchAttempt r1 with
  | .ok t => .ok t
  | .error _ =>
    match fetchAttempt r2 with
    | .ok t => .ok t
    | .error e2 => .error e2

/-- A response that signals rate-limiting or blocking, or carries a
bot-challenge marker. -/
def isBlockedResp (r : HttpResponse) : Bool :=
  r.status = 403 || r.status = 429 || r.status = 503 || _looks_like_captcha r.text

/-- The fetch-level conditions covered by the spec name FetchBlocked. -/
def isFetchBlocked : ScraperError → Bool
  | .fetchBlockedStatus => true
  | .fetchCaptcha => true
  | _ => false

end Scraper

namespace PyStr

/-- A single-quote character as a string (used inside CSS attribute
selector literals). -/
def sq : String := String.singleton (Char.ofNat 39)

end PyStr

namespace SelfHeal

open PyStr Scraper

/-- The environment a `try_scrape` run interacts with: the HTTP
responses consumed by the (at most) two fetches — each fetch itself
retrying once, hence two responses per fetch — the HTML-to-document
parser, the external rule repair (`rule_detector_ai.fix_rules`, which
may consult the oracle) and `urljoin`. -/
structure Env where
  firstA : HttpResponse
  secondA : HttpResponse
  firstB : HttpResponse
  secondB : HttpResponse
  parse : String → SDoc
  fixRules : String → Rules → Rules
  urljoin : String → String → String

/-- `scrape_products` of `scraper.py`: fetch then extract. -/
def scrape_products (env : Env) (url : String) (rules : Rules) :
    Except ScraperError (List ParsedProduct) :=
  match fetch_html env.firstA env.secondA with
  | .error e => .error e
  | .ok html => parse_products env.urljoin (env.parse html) url rules

/-- `try_scrape` of `self_heal.py`: classical scrape first; on any
`ScraperError`, re-fetch, repair the rules, and re-run extraction
exactly once, surfacing that second failure unchanged. -/
def try_scrape (env : Env) (url : String) (rules : Rules) :
    Except ScraperError (List ParsedProduct × Rules) :=
  match scrape_products env url rules with
  | .ok items => .ok (items, rules)
  | .error _ =>
    match fetch_html env.firstB env.secondB with
    | .error e => .error e
    | .ok html =>
      let new_rules := env.fixRules html rules
      match parse_products env.urljoin (env.parse html) url new_rules with
      | .error e => .error e
      | .ok fixed => .ok (fixed, new_rules)

/-- The single repair-and-retry pipeline `try_scrape` falls back to:
one re-fetch, one rule repair, one extraction run. -/
def repairRetry (env : Env) (url : String) (rules : Rules) :
    Except ScraperError (List ParsedProduct × Rules) :=
  match fetch_html env.firstB env.secondB with
  | .error e => .error e
  | .ok html =>
    let new_rules := env.fixRules html rules
    match parse_products env.urljoin (env.parse html) url new_rules with
    | .error e => .error e
    | .ok fixed => .ok (fixed, new_rules)

end SelfHeal

namespace RuleDetector

open PyStr Scraper

/-- The concrete rule dictionary returned by `_heuristic_rules`: all
five keys present. -/
structure RulesC where
  product_item : String
  name_selector : String
  price_selector : String
  url_selector : String
  category_link : String
deriving DecidableEq

/-- `(previous_rules or {}).get(field, DEFAULT_RULES[field])`. -/
def prevGet (previous : Option Rules) (field : Rules → Option String) (d : String) : String :=
  match previous with
  | none => d
  | some r => (field r).getD d

/-- Container probe of `_heuristic_rules`: the first selector matching
more than three nodes. -/
def itemProbe (doc : SDoc) : Option String :=
  [".product", ".product-card", "[class*=" ++ sq ++ "product" ++ sq ++ "]", "article"].find?
    (fun sel => decide ((doc.css sel).length > 3))

/-- Name probe: the first selector with any match at all. -/
def nameProbe (doc : SDoc) : Option String :=
  ["h2", "h3", "[itemprop=" ++ sq ++ "name" ++ sq ++ "]"].find?
    (fun sel => (doc.cssFirst sel).isSome)

/-- Price probe: the first selector whose first match contains a digit. -/
def priceProbe (doc : SDoc) : Option String :=
  [".price", "[itemprop=" ++ sq ++ "price" ++ sq ++ "]", "[class*=" ++ sq ++ "price" ++ sq ++ "]"].find?
    (fun sel =>
      match doc.cssFirst sel with
      | some n => n.text.toList.any Char.isDigit
      | none => false)

/-- Url probe: the first selector whose first match carries a truthy href. -/
def urlProbe (doc : SDoc) : Option String :=
  ["a.product-link", "a[href*=" ++ sq ++ "product" ++ sq ++ "]", "a"].find?
    (fun sel =>
      match doc.cssFirst sel with
      | some n => (n.href.getD "") != ""
      | none => false)

/-- `_heuristic_rules` of `rule_detector_ai.py`: page probes override,
previous values (or built-in defaults) are only the fallback. -/
def _heuristic_rules (doc : SDoc) (previous : Option Rules) : RulesC :=
  { product_item := (itemProbe doc).getD (prevGet previous (fun r => r.product_item) DEFAULT_product_item),
    name_selector := (nameProbe doc).getD (prevGet previous (fun r => r.name_selector) DEFAULT_name_selector),
    price_selector := (priceProbe doc).getD (prevGet previous (fun r => r.price_selector) DEFAULT_price_selector),
    url_selector := (urlProbe doc).getD (prevGet previous (fun r => r.url_selector) DEFAULT_url_selector),
    category_link := prevGet previous (fun r => r.category_link) DEFAULT_category_link }

end RuleDetector

namespace CatTree

/-- One node of a category hierarchy: name, optional URL (absent on
intermediate path-segment nodes), nested children. -/
inductive CatNode where
  | mk : String → Option String → List CatNode → CatNode

def CatNode.name : CatNode → String
  | .mk n _ _ => n

def CatNode.url : CatNode → Option String
  | .mk _ u _ => u

def CatNode.children : CatNode → List CatNode
  | .mk _ _ c => c

/-- A top-level category group. -/
structure CatGroup where
  group_name : String
  items : List CatNode

end CatTree

namespace CategoryAI

open PyStr Scraper CatTree

/-- Qualifying anchors of `_heuristic_category_tree`: skip falsy hrefs
and stripped names shorter than 3 characters; keep the raw href. -/
def qualItems (links : List HNode) : List CatNode :=
  links.filterMap (fun link =>
    let href := link.href.getD ""
    let name := pyStrip link.text
    if href = "" || name.length < 3 then none
    else some (CatNode.mk name (some href) []))

/-- The fixed fallback selector list of `_heuristic_category_tree`. -/
def heurSelectors : List String :=
  ["nav a", "ul a", "header a",
   "a[href*=" ++ sq ++ "catalog" ++ sq ++ "]",
   "a[href*=" ++ sq ++ "category" ++ sq ++ "]"]

/-- Selector loop of `_heuristic_category_tree`: stop at the first
selector after which the collected item list is nonempty; all items
live under the single group named Каталог. -/
def heurLoop (doc : SDoc) : List String → List CatNode → List CatGroup
  | [], acc => if acc.isEmpty then [] else [{ group_name := "Каталог", items := acc }]
  | sel :: rest, acc =>
    let acc := acc ++ qualItems (doc.css sel)
    if acc.isEmpty then heurLoop doc rest acc
    else [{ group_name := "Каталог", items := acc }]

/-- `_heuristic_category_tree` of `category_ai.py`. -/
def _heuristic_category_tree (doc : SDoc) : List CatGroup :=
  heurLoop doc heurSelectors []

end CategoryAI

namespace Fallback

open PyStr Scraper CatTree

/-- The nonempty path segments of `urllib.parse.urlparse(url).path`
(that is, `parsed.path.strip("/").split("/")` with falsy parts
dropped), modelled for http(s)-style absolute URLs and plain path
references: drop the fragment and the query, drop `scheme://authority`
when present, and split the remaining path on slashes. -/
def pathSegments (url : String) : List String :=
  let cs := (splitPred (fun c => c == '#') url.toList).headD []
  let cs := (splitPred (fun c => c == '?') cs).headD []
  let path :=
    match splitFirstOn "://".toList cs with
    | some (_, after) =>
      match splitPred (fun c => c == '/') after with
      | _ :: pathParts => pathParts
      | [] => []
    | none => splitPred (fun c => c == '/') cs
  (path.map String.mk).filter (fun seg => seg ≠ "")

/-- Locale stripping of `build_category_groups`: drop a recognized
leading `ru`/`ua`/`uk` segment. -/
def localeStripped (parts : List String) : List String :=
  match parts with
  | p :: rest => if p = "ru" || p = "ua" || p = "uk" then rest else parts
  | [] => parts

/-- The nested walk of `build_category_groups`: descend along the
remaining path segments through `_find_or_create`, then append the leaf
named from the link text. -/
def addToLevel (parts : List String) (leaf : CatNode) (level : List CatNode) : List CatNode :=
  match parts with
  | [] => level ++ [leaf]
  | part :: rest =>
    match level.findIdx? (fun n => n.name = part) with
    | some i =>
      let n := level.getD i (CatNode.mk part none [])
      level.set i (CatNode.mk n.name n.url (addToLevel rest leaf n.children))
    | none => level ++ [CatNode.mk part none (addToLevel rest leaf [])]

/-- Processing of one category record by `build_category_groups`. -/
def groupStep (groups : List CatGroup) (cat : Category) : List CatGroup :=
  let url := pyStrip cat.url
  let name := pyStrip cat.name
  if url = "" || name = "" then groups
  else
    let parts := localeStripped (pathSegments url)
    let group_key := parts.headD "Інше"
    let remaining := parts.tail
    let leaf := CatNode.mk name (some url) []
    if groups.any (fun g => g.group_name = group_key) then
      groups.map (fun g =>
        if g.group_name = group_key then
          { g with items := addToLevel remaining leaf g.items }
        else g)
    else
      groups ++ [{ group_name := group_key, items := addToLevel remaining leaf [] }]

/-- `build_category_groups` of `fallback_logic.py`, on the category
records produced by the scraper (the dict/None tolerance of the Python
source collapses onto the record fields). -/
def build_category_groups (cats : List Category) : List CatGroup :=
  stableSortBy (fun a b => strLeB a.group_name b.group_name) (cats.foldl groupStep [])

end Fallback

namespace Core

open PyStr

/-- A node of the dependency-free HTML tree of `parserai/core.py`:
tag, attribute list (keys unique, insertion-ordered), children, own
text.  The parent back-reference of the source is navigation-only and
unused by the embedded functions, so it is dropped. -/
inductive Node where
  | mk : String → List (String × String) → List Node → String → Node

def Node.tag : Node → String
  | .mk t _ _ _ => t

def Node.attrs : Node → List (String × String)
  | .mk _ a _ _ => a

def Node.children : Node → List Node
  | .mk _ _ c _ => c

def Node.text : Node → String
  | .mk _ _ _ t => t

/-- `node.attrs.get(key)` as an option. -/
def attrLookup (n : Node) (k : String) : Option String :=
  (n.attrs.find? (fun p => p.1 == k)).map (fun p => p.2)

/-- `node.attrs.get(key, default)`. -/
def attrGet (n : Node) (k d : String) : String :=
  (attrLookup n k).getD d

mutual

/-- `Node.all_text`: own text followed by the children texts in order. -/
def Node.all_text : Node → String
  | .mk _ _ children text => text ++ allTextList children

def allTextList : List Node → String
  | [] => ""
  | c :: cs => Node.all_text c ++ allTextList cs

end

/-- The parse of one selector token. -/
structure TokenSpec where
  tag : Option String
  classes : List String
  id : Option String
  attrs : List (String × String)

/-- The bracketed-value extraction of the attribute regex: the greedy
one-or-more non-bracket group with an optional leading quote consumed
first when possible (the trailing quote stays inside the group, exactly
as the Python pattern behaves). -/
def contentVal (content : List Char) : Option String :=
  match content with
  | [] => none
  | ['"'] => some (String.mk ['"'])
  | q :: rest => if q = '"' then some (String.mk rest) else some (String.mk content)

/-- One attempt of the attribute pattern right after an opening
bracket: the greedy nonempty name of non-equals non-bracket characters,
a literal equals sign, the quote-adjusted value (see `contentVal`), and
the closing bracket; `some (pair, continuation-after-the-match)` on
success, `none` on failure (the scan then advances one character, as
the regex engine does). -/
def attrStep (rest : List Char) : Option ((String × String) × List Char) :=
  let name := rest.takeWhile (fun x => x ≠ '=' && x ≠ ']')
  let afterName := rest.drop name.length
  if name ≠ [] ∧ afterName.head? = some '=' then
    let afterEq := afterName.tail
    let content := afterEq.takeWhile (fun x => x ≠ ']')
    if (afterEq.drop content.length).head? = some ']' then
      (contentVal content).map (fun v => ((String.mk name, v), afterEq.drop (content.length + 1)))
    else none
  else none

/-- One step of the left-to-right non-overlapping scan of the attribute
pattern used by `_parse_selector_token` (a faithful rendering of the
Python regex including its scan-on-failure advance); `recur` is the
continuation for the rescans, always applied to a strictly shorter
list.  `attrScan_eq` below certifies the fixed point. -/
def attrScanBody (recur : List Char → List (String × String)) :
    List Char → List (String × String)
  | [] => []
  | c :: rest =>
    if c = '[' then
      match attrStep rest with
      | some (pair, next) => pair :: recur next
      | none => recur rest
    else recur rest

/-- Fuel-indexed iteration of `attrScanBody` (structural, so concrete
runs evaluate in the kernel). -/
def attrScanF : Nat → List Char → List (String × String)
  | 0, _ => []
  | fuel + 1, cs => attrScanBody (attrScanF fuel) cs

/-- The attribute scan of `_parse_selector_token`: the fuel equals the
input length, which `attrScan_eq` proves sufficient. -/
def attrScan (cs : List Char) : List (String × String) :=
  attrScanF cs.length cs

/-- One attempt of the bracket-removal pattern right after an opening
bracket: a nonempty run of non-bracket characters and the closing
bracket; `some continuation` on success, `none` when the bracket body
is empty or unterminated (the bracket then survives). -/
def bracketStep (rest : List Char) : Option (List Char) :=
  let content := rest.takeWhile (fun x => x ≠ ']')
  if content ≠ [] ∧ (rest.drop content.length).head? = some ']' then
    some (rest.drop (content.length + 1))
  else none

/-- One step of the bracket-stripping substitution applied when
attribute matches were found (brackets with empty or unterminated
bodies survive); `removeBrackets_eq` below certifies the fixed point. -/
def removeBracketsBody (recur : List Char → List Char) : List Char → List Char
  | [] => []
  | c :: rest =>
    if c = '[' then
      match bracketStep rest with
      | some next => recur next
      | none => '[' :: recur rest
    else c :: recur rest

/-- Fuel-indexed iteration of `removeBracketsBody`. -/
def removeBracketsF : Nat → List Char → List Char
  | 0, _ => []
  | fuel + 1, cs => removeBracketsBody (removeBracketsF fuel) cs

/-- The bracket-stripping substitution, with provably sufficient fuel. -/
def removeBrackets (cs : List Char) : List Char :=
  removeBracketsF cs.length cs

/-- `_parse_selector_token` of `core.py` (note the source quirks: a
leading dot swallows the whole remainder as one class name, a hash is
only recognized at the start of the token). -/
def _parse_selector_token (token : String) : TokenSpec :=
  let cs := token.toList
  let found := attrScan cs
  let attrs := found.foldl (fun d p => dictSet d p.1 p.2) []
  let cs := if found.isEmpty then cs else removeBrackets cs
  match cs with
  | '.' :: rest => { tag := none, classes := [String.mk rest], id := none, attrs := attrs }
  | '#' :: rest => { tag := none, classes := [], id := some (String.mk rest), attrs := attrs }
  | _ =>
    if cs.contains '.' then
      match splitPred (fun x => x == '.') cs with
      | t :: restParts =>
        { tag := some (String.mk t), classes := restParts.map String.mk, id := none, attrs := attrs }
      | [] => { tag := none, classes := [], id := none, attrs := attrs }
    else
      { tag := if cs.isEmpty then none else some (String.mk cs), classes := [], id := none, attrs := attrs }

/-- `_matches_token` of `core.py`. -/
def _matches_token (node : Node) (token : String) : Bool :=
  if node.tag = "document" then false
  else
    let spec := _parse_selector_token token
    let tagOk := match spec.tag with
      | some t => t == "" || node.tag == t
      | none => true
    let idOk := match spec.id with
      | some i => i == "" || attrGet node "id" "" == i
      | none => true
    let classOk := spec.classes.all (fun cls => (pySplit (attrGet node "class" "")).contains cls)
    let attrsOk := spec.attrs.all (fun p => attrLookup node p.1 == some p.2)
    tagOk && idOk && classOk && attrsOk

mutual

/-- `_descendant_matches` of `core.py` on one node: scan the children. -/
def dmNode (tokens : List String) : Node → Nat → Option Node
  | .mk _ _ children _, index =>
    if index ≥ tokens.length then none
    else dmChildren tokens children index none

/-- The child loop of `_descendant_matches`: a child matching the last
token returns immediately, a deeper full-chain match returns
immediately, and otherwise the first same-level nested match collected
so far is remembered and returned at the end. -/
def dmChildren (tokens : List String) (cs : List Node) (index : Nat) (acc : Option Node) : Option Node :=
  match cs with
  | [] => acc
  | child :: rest =>
    if _matches_token child (tokens.getD index "") then
      if index + 1 = tokens.length then some child
      else
        match dmNode tokens child (index + 1) with
        | some deeper => some deeper
        | none => dmChildren tokens rest index (acc.orElse (fun _ => dmNode tokens child index))
    else
      dmChildren tokens rest index (acc.orElse (fun _ => dmNode tokens child index))

end

/-- `select_first` of `core.py`. -/
def select_first (root : Node) (selector : String) : Option Node :=
  let s := pyStrip selector
  if s = "" then none
  else dmNode (pySplit s) root 0

/-- The `KEYWORDS` table of `core.py`. -/
def KEYWORDS (field : String) : List String :=
  if field = "title" then ["title", "name", "product-title", "product_name", "product-name"]
  else if field = "price" then ["price", "amount", "cost", "value"]
  else if field = "description" then ["description", "details", "product-description"]
  else if field = "images" then ["image", "photo", "gallery", "product-image"]
  else if field = "attributes" then ["spec", "feature", "detail", "attribute", "info"]
  else []

/-- `_score_node` of `core.py`. -/
def _score_node (node : Node) (keywords : List String) : Nat :=
  let classAttr := attrGet node "class" ""
  let idAttr := attrGet node "id" ""
  let kwScore := keywords.foldl (fun acc kw =>
    acc + (if strContains classAttr kw then 3 else 0)
        + (if strContains node.tag kw then 2 else 0)
        + (if strContains idAttr kw then 4 else 0)) 0
  kwScore +
    (match node.tag.toList with
     | 'h' :: rest => if pyIsDigitL rest then 1 else 0
     | _ => 0)

/-- The selector token `_find_best_selector` builds for a node. -/
def nodeToken (n : Node) : String :=
  let token := n.tag
  let node_classes := pySplit (attrGet n "class" "")
  let token := if node_classes.isEmpty then token
               else token ++ "." ++ joinSep "." node_classes
  if attrGet n "id" "" ≠ "" then "#" ++ attrGet n "id" "" else token

mutual

/-- The preorder visit of `_find_best_selector`: any node tagged
`document` is skipped (its children still visited); strictly better
scores win, so the first node reaching the best score is kept. -/
def visitNode (field : String) : Node → Option (Nat × String) → Option (Nat × String)
  | .mk tag attrs children text, best =>
    if tag = "document" then visitList field children best
    else
      let n := Node.mk tag attrs children text
      let token := nodeToken n
      let score := _score_node n (KEYWORDS field)
        + (if field == "price" && (Node.all_text n).toList.any Char.isDigit then 2 else 0)
        + (if field == "images" && tag == "img" && (attrGet n "src" "" != "") then 4 else 0)
      let best := match best with
        | none => some (score, token)
        | some (bs, bt) => if score > bs then some (score, token) else some (bs, bt)
      visitList field children best

def visitList (field : String) : List Node → Option (Nat × String) → Option (Nat × String)
  | [], best => best
  | c :: cs, best => visitList field cs (visitNode field c best)

end

/-- `_find_best_selector` of `core.py`. -/
def _find_best_selector (root : Node) (field : String) : String :=
  match visitNode field root none with
  | some (_, t) => t
  | none => ""

/-- `ParsingAlgorithm` of `core.py`, with the `meta` dict narrowed to
the two keys the embedded functions read and write (`confidence` is an
option, matching `meta.get("confidence", 0.6)`). -/
structure ParsingAlgorithm where
  selectors : List (String × String)
  confidence : Option ℚ
  warnings : List String
deriving DecidableEq

/-- `self_heal_algorithm` of `core.py`, taking the already-parsed tree
of the error page (`parse_html` is the external DocumentTree builder):
selectors that still match are kept, failed ones are re-scored, the
meta confidence is updated from the new warning count. -/
def self_heal_algorithm (root : Node) (previous : ParsingAlgorithm) : ParsingAlgorithm :=
  let updated := previous.selectors.map (fun p =>
    if (select_first root p.2).isSome then p else (p.1, _find_best_selector root p.1))
  let warnings := (updated.filter (fun p => p.2 == "")).map (fun p => p.1)
  let confidence := max (3/10 : ℚ) (min 1 ((previous.confidence.getD (6/10)) - 1/20 + (warnings.length : ℚ) / 10))
  { selectors := updated, confidence := some confidence, warnings := warnings }

/-- Word characters of the token regex (ASCII model of the
word-or-hyphen character class). -/
def isWordChar (c : Char) : Bool :=
  c.isAlphanum || c = '_' || c = '-'

/-- `_tokenize` of `core.py`: maximal word-character runs of the
lowercased text (the multiset of tokens is kept as a list). -/
def _tokenize (s : String) : List String :=
  ((splitPred (fun c => !isWordChar c) (pyLower s)).map String.mk).filter (fun t => t ≠ "")

/-- `sum((ca & cb).values())` on token multisets. -/
def interCount (xs ys : List String) : Nat :=
  ∑ t ∈ (xs ++ ys).toFinset, min (xs.count t) (ys.count t)

/-- `sum((ca | cb).values())` on token multisets. -/
def unionCount (xs ys : List String) : Nat :=
  ∑ t ∈ (xs ++ ys).toFinset, max (xs.count t) (ys.count t)

/-- `_similarity` of `parserai/core.py`: multiset Jaccard overlap of
word tokens, zero when either side has no tokens. -/
def _similarity (a b : String) : ℚ :=
  let ca := _tokenize a
  let cb := _tokenize b
  if ca.isEmpty || cb.isEmpty then 0
  else
    let intersection := interCount ca cb
    let union := unionCount ca cb
    if union = 0 then 0 else (intersection : ℚ) / (union : ℚ)

end Core

namespace Difflib

open PyStr

/-- Common-prefix length of two character lists. -/
def cpl : List Char → List Char → Nat
  | a :: as, b :: bs => if a = b then cpl as bs + 1 else 0
  | _, _ => 0

/-- `SequenceMatcher.find_longest_match` over the whole ranges, in the
junk-free regime (no junk dict, inputs short of the autojunk cutoff):
the block of maximal size, ties resolved to the smallest start in the
first sequence, then the smallest start in the second. -/
def longestMatch (a b : List Char) : Nat × Nat × Nat :=
  (List.range a.length).foldl (fun best i =>
    (List.range b.length).foldl (fun best j =>
      let k := cpl (a.drop i) (b.drop j)
      if k > best.2.2 then (i, j, k) else best) best) (0, 0, 0)

/-- One step of the total matched length of
`SequenceMatcher.get_matching_blocks`: the longest block plus,
recursively through `recur` (always applied to a strictly shorter
first list), the totals on the pieces left and right of it;
`matchTotal_eq` below certifies the fixed point. -/
def matchTotalBody (recur : List Char → List Char → Nat) (a b : List Char) : Nat :=
  let t := longestMatch a b
  if t.2.2 = 0 then 0
  else recur (a.take t.1) (b.take t.2.1) + t.2.2 +
       recur (a.drop (t.1 + t.2.2)) (b.drop (t.2.1 + t.2.2))

/-- Fuel-indexed iteration of `matchTotalBody`. -/
def matchTotalF : Nat → List Char → List Char → Nat
  | 0, _, _ => 0
  | fuel + 1, a, b => matchTotalBody (matchTotalF fuel) a b

/-- Total matched length, with provably sufficient fuel. -/
def matchTotal (a b : List Char) : Nat :=
  matchTotalF a.length a b

/-- `difflib._calculate_ratio`: `2*M / T`, and 1 when both sides are
empty. -/
def calcRat (a b : List Char) : ℚ :=
  if a.length + b.length = 0 then 1
  else 2 * (matchTotal a b : ℚ) / ((a.length : ℚ) + (b.length : ℚ))

end Difflib

namespace Matcher

open PyStr

/-- `_similarity` of `matcher_ai.py`: the difflib sequence ratio on the
lowercased names. -/
def _similarity (a b : String) : ℚ :=
  Difflib.calcRat (pyLower a) (pyLower b)

end Matcher

namespace Fixtures

open Scraper

/-- A leaf node with given text, no attributes, no sub-queries. -/
def textNode (t : String) : HNode := HNode.mk t none (fun _ => none)

/-- An anchor node with given text and href. -/
def linkNode (t h : String) : HNode := HNode.mk t (some h) (fun _ => none)

/-- A product card: a title sub-node and a price sub-node, no link. -/
def cardNode : HNode :=
  HNode.mk "" none (fun sel =>
    if sel = ".product-title" then some (textNode "  Item ")
    else if sel = ".price" then some (textNode "1 299,00 грн")
    else none)

/-- A document whose default container selector yields one card. -/
def cardDoc : SDoc :=
  ⟨fun sel => if sel = DEFAULT_product_item then [cardNode] else []⟩

/-- A document with no matches at all. -/
def emptyDoc : SDoc := ⟨fun _ => []⟩

/-- The all-unset rule dictionary (every field falls back to defaults). -/
def emptyRules : Rules := ⟨none, none, none, none, none⟩

/-- A product card with a title only (no price, no link). -/
def plainCard : HNode :=
  HNode.mk "" none (fun sel =>
    if sel = ".product-title" then some (textNode "Item") else none)

/-- A document whose default container selector yields one plain card. -/
def plainDoc : SDoc :=
  ⟨fun sel => if sel = DEFAULT_product_item then [plainCard] else []⟩

/-- An environment whose fetches succeed and parse to the plain page. -/
def okEnv : SelfHeal.Env :=
  { firstA := ⟨200, "page"⟩, secondA := ⟨200, "page"⟩,
    firstB := ⟨200, "page"⟩, secondB := ⟨200, "page"⟩,
    parse := fun _ => plainDoc,
    fixRules := fun _ r => r,
    urljoin := fun b _ => b }

/-- An environment where every response is a 403. -/
def blockedEnv : SelfHeal.Env :=
  { firstA := ⟨403, ""⟩, secondA := ⟨403, ""⟩,
    firstB := ⟨403, ""⟩, secondB := ⟨403, ""⟩,
    parse := fun _ => emptyDoc,
    fixRules := fun _ r => r,
    urljoin := fun b _ => b }

/-- A page for the repair counterexample: the previous custom title
selector still matches, and an `h2` is also present. -/
def repairDoc : SDoc :=
  ⟨fun sel =>
    if sel = ".custom-title" then [textNode "Widget"]
    else if sel = "h2" then [textNode "Heading"]
    else []⟩

/-- Previous rules whose name selector still matches `repairDoc`. -/
def repairPrev : Rules :=
  ⟨some ".items", some ".custom-title", some ".cost", some "a", some "nav a"⟩

/-- An empty document tree (no scorable node at all). -/
def emptyRoot : Core.Node := Core.Node.mk "document" [] [] ""

/-- A document tree holding a single plain `div`. -/
def divRoot : Core.Node := Core.Node.mk "document" [] [Core.Node.mk "div" [] [] ""] ""

/-- A five-field algorithm whose selectors all fail to match. -/
def fiveAlgo : Core.ParsingAlgorithm :=
  { selectors := [("title", "zzz"), ("price", "zzz"), ("description", "zzz"),
                  ("images", "zzz"), ("attributes", "zzz")],
    confidence := none, warnings := [] }

/-- A one-field algorithm whose selector matches `divRoot`. -/
def divAlgo : Core.ParsingAlgorithm :=
  { selectors := [("title", "div")], confidence := some (1/2), warnings := [] }

/-- A navigation block with one qualifying link and one whose stripped
text is shorter than three characters. -/
def linksDoc : SDoc :=
  ⟨fun sel => if sel = "nav a" then [linkNode "Tools " "/tools", linkNode "X" "/x"] else []⟩

end Fixtures

namespace Scraper

/-- A link-dict entry justified by a qualifying anchor: some selector
alternative matched an anchor with a truthy href whose stripped text
has at least three characters, and the entry carries that stripped text
as name and the absolutized href as key. -/
def goodEntry (urljoin : String → String → String) (doc : SDoc) (base_url : String)
    (ruleSet : List String) (p : String × String) : Prop :=
  ∃ rule, rule ∈ ruleSet ∧ ∃ link, link ∈ doc.css (PyStr.pyStrip rule) ∧
    (link.href.getD "") ≠ "" ∧ p.2 = PyStr.pyStrip link.text ∧
    3 ≤ (PyStr.pyStrip link.text).length ∧ p.1 = urljoin base_url (link.href.getD "")

end Scraper

namespace CategoryAI

open CatTree

/-- A heuristic-tree item justified by a qualifying anchor of one of
the fixed fallback selectors. -/
def goodItem (doc : Scraper.SDoc) (item : CatNode) : Prop :=
  ∃ sel, sel ∈ heurSelectors ∧ ∃ link, link ∈ doc.css sel ∧
    (link.href.getD "") ≠ "" ∧ item.name = PyStr.pyStrip link.text ∧
    3 ≤ (PyStr.pyStrip link.text).length ∧ item.url = some (link.href.getD "")

end CategoryAI

/-!
Supporting lemmas: dictionary membership, fold invariants, and the
fixed-point certificates for the fuel-indexed scans.
-/

namespace PyStr

theorem mem_dictSet {d : List (String × String)} {k v : String} {p : String × String}
    (h : p ∈ dictSet d k v) : p ∈ d ∨ p = (k, v) := by
  unfold dictSet at h
  split at h
  · rcases List.mem_map.mp h with ⟨q, hq, hh⟩
    by_cases hk : q.1 = k
    · simp [hk] at hh
      exact Or.inr hh.symm
    · simp [hk] at hh
      exact Or.inl (hh ▸ hq)
  · rcases List.mem_append.mp h with h | h
    · exact Or.inl h
    · simp at h
      exact Or.inr h

/-- Invariant preservation along a left fold. -/
theorem foldl_invariant {α β : Type} (P : β → Prop) (f : β → α → β) (l : List α)
    (init : β) (h0 : P init) (hstep : ∀ b a, a ∈ l → P b → P (f b a)) :
    P (l.foldl f init) := by
  induction l generalizing init with
  | nil => exact h0
  | cons x xs ih =>
    exact ih (f init x) (hstep init x (by simp) h0)
      (fun b a ha hb => hstep b a (by simp [ha]) hb)

end PyStr

namespace Core

theorem attrStep_length {rest : List Char} {p : String × String} {next : List Char}
    (h : attrStep rest = some (p, next)) : next.length ≤ rest.length := by
  simp only [attrStep] at h
  split_ifs at h
  rcases Option.map_eq_some'.mp h with ⟨v, _, hv⟩
  have := congrArg Prod.snd hv
  simp at this
  subst this
  simp [List.length_drop, List.length_tail]

theorem attrScanBody_congr {r1 r2 : List Char → List (String × String)} (cs : List Char)
    (h : ∀ ys : List Char, ys.length < cs.length → r1 ys = r2 ys) :
    attrScanBody r1 cs = attrScanBody r2 cs := by
  match cs with
  | [] => rfl
  | c :: rest =>
    have hrest : r1 rest = r2 rest := h rest (by simp)
    simp only [attrScanBody]
    split_ifs
    · cases hstep : attrStep rest with
      | some pr =>
        obtain ⟨pair, next⟩ := pr
        have hlen : next.length ≤ rest.length := attrStep_length hstep
        show pair :: r1 next = pair :: r2 next
        rw [h next (by simp; omega)]
      | none => exact hrest
    · exact hrest

theorem attrScanF_eq_attrScan : ∀ (fuel : Nat) (cs : List Char), cs.length ≤ fuel →
    attrScanF fuel cs = attrScan cs := by
  intro fuel
  induction fuel using Nat.strong_induction_on with
  | _ fuel ih =>
    intro cs hcs
    match fuel, cs with
    | 0, [] => rfl
    | f + 1, [] =>
      show attrScanBody (attrScanF f) [] = attrScan []
      rfl
    | f + 1, c :: rest =>
      show attrScanBody (attrScanF f) (c :: rest) = attrScan (c :: rest)
      have hR : attrScan (c :: rest) = attrScanBody (attrScanF rest.length) (c :: rest) := rfl
      rw [hR]
      apply attrScanBody_congr
      intro ys hys
      simp at hys hcs
      rw [ih f (by omega) ys (by omega), ih rest.length (by omega) ys (by omega)]

/-- The attribute scan satisfies the intended recursion: the fuel in
`attrScan` is sufficient. -/
theorem attrScan_eq (cs : List Char) : attrScan cs = attrScanBody attrScan cs := by
  match cs with
  | [] => rfl
  | c :: rest =>
    show attrScanBody (attrScanF rest.length) (c :: rest) = attrScanBody attrScan (c :: rest)
    apply attrScanBody_congr
    intro ys hys
    simp at hys
    exact attrScanF_eq_attrScan rest.length ys (by omega)

theorem bracketStep_length {rest next : List Char}
    (h : bracketStep rest = some next) : next.length ≤ rest.length := by
  simp only [bracketStep] at h
  split_ifs at h
  cases h
  simp [List.length_drop]

theorem removeBracketsBody_congr {r1 r2 : List Char → List Char} (cs : List Char)
    (h : ∀ ys : List Char, ys.length < cs.length → r1 ys = r2 ys) :
    removeBracketsBody r1 cs = removeBracketsBody r2 cs := by
  match cs with
  | [] => rfl
  | c :: rest =>
    have hrest : r1 rest = r2 rest := h rest (by simp)
    simp only [removeBracketsBody]
    split_ifs
    · cases hstep : bracketStep rest with
      | some next =>
        have hlen := bracketStep_length hstep
        show r1 next = r2 next
        rw [h next (by simp; omega)]
      | none => rw [hrest]
    · rw [hrest]

theorem removeBracketsF_eq : ∀ (fuel : Nat) (cs : List Char), cs.length ≤ fuel →
    removeBracketsF fuel cs = removeBrackets cs := by
  intro fuel
  induction fuel using Nat.strong_induction_on with
  | _ fuel ih =>
    intro cs hcs
    match fuel, cs with
    | 0, [] => rfl
    | f + 1, [] =>
      show removeBracketsBody (removeBracketsF f) [] = removeBrackets []
      rfl
    | f + 1, c :: rest =>
      show removeBracketsBody (removeBracketsF f) (c :: rest) = removeBrackets (c :: rest)
      have hR : removeBrackets (c :: rest) = removeBracketsBody (removeBracketsF rest.length) (c :: rest) := rfl
      rw [hR]
      apply removeBracketsBody_congr
      intro ys hys
      simp at hys hcs
      rw [ih f (by omega) ys (by omega), ih rest.length (by omega) ys (by omega)]

/-- The bracket removal satisfies the intended recursion: the fuel in
`removeBrackets` is sufficient. -/
theorem removeBrackets_eq (cs : List Char) : removeBrackets cs = removeBracketsBody removeBrackets cs := by
  match cs with
  | [] => rfl
  | c :: rest =>
    show removeBracketsBody (removeBracketsF rest.length) (c :: rest) = removeBracketsBody removeBrackets (c :: rest)
    apply removeBracketsBody_congr
    intro ys hys
    simp at hys
    exact removeBracketsF_eq rest.length ys (by omega)

end Core

namespace Difflib

open PyStr

theorem cpl_le_left : ∀ a b : List Char, cpl a b ≤ a.length := by
  intro a
  induction a with
  | nil => intro b; cases b <;> simp [cpl]
  | cons x xs ih =>
    intro b
    cases b with
    | nil => simp [cpl]
    | cons y ys =>
      simp only [cpl]
      split
      · simpa using ih ys
      · simp

theorem cpl_le_right : ∀ a b : List Char, cpl a b ≤ b.length := by
  intro a
  induction a with
  | nil => intro b; cases b <;> simp [cpl]
  | cons x xs ih =>
    intro b
    cases b with
    | nil => simp [cpl]
    | cons y ys =>
      simp only [cpl]
      split
      · simpa using ih ys
      · simp

theorem longestMatch_bounds (a b : List Char) :
    (longestMatch a b).1 + (longestMatch a b).2.2 ≤ a.length ∧
    (longestMatch a b).2.1 + (longestMatch a b).2.2 ≤ b.length := by
  unfold longestMatch
  apply foldl_invariant (P := fun t : Nat × Nat × Nat =>
    t.1 + t.2.2 ≤ a.length ∧ t.2.1 + t.2.2 ≤ b.length)
  · simp
  · intro best i hi hbest
    apply foldl_invariant (P := fun t : Nat × Nat × Nat =>
      t.1 + t.2.2 ≤ a.length ∧ t.2.1 + t.2.2 ≤ b.length)
    · exact hbest
    · intro best2 j hj hbest2
      simp only
      split
      · have hia : i < a.length := List.mem_range.mp hi
        have hjb : j < b.length := List.mem_range.mp hj
        have h1 := cpl_le_left (a.drop i) (b.drop j)
        have h2 := cpl_le_right (a.drop i) (b.drop j)
        simp [List.length_drop] at h1 h2
        constructor <;> simp <;> omega
      · exact hbest2

theorem matchTotalBody_congr {r1 r2 : List Char → List Char → Nat} (a b : List Char)
    (h : ∀ a2 b2 : List Char, a2.length < a.length → r1 a2 b2 = r2 a2 b2) :
    matchTotalBody r1 a b = matchTotalBody r2 a b := by
  have hb := longestMatch_bounds a b
  simp only [matchTotalBody]
  split_ifs with hk
  · rfl
  · rw [h _ _ (by simp [List.length_take]; omega), h _ _ (by simp [List.length_drop]; omega)]

theorem matchTotalF_eq : ∀ (fuel : Nat) (a b : List Char), a.length ≤ fuel →
    matchTotalF fuel a b = matchTotal a b := by
  intro fuel
  induction fuel using Nat.strong_induction_on with
  | _ fuel ih =>
    intro a b ha
    match fuel, a with
    | 0, [] => rfl
    | f + 1, [] =>
      show matchTotalBody (matchTotalF f) [] b = matchTotal [] b
      rfl
    | f + 1, x :: xs =>
      show matchTotalBody (matchTotalF f) (x :: xs) b = matchTotal (x :: xs) b
      have hR : matchTotal (x :: xs) b = matchTotalBody (matchTotalF xs.length) (x :: xs) b := rfl
      rw [hR]
      apply matchTotalBody_congr
      intro a2 b2 ha2
      simp at ha2 ha
      rw [ih f (by omega) a2 b2 (by omega), ih xs.length (by omega) a2 b2 (by omega)]

/-- The matched-length recursion holds of `matchTotal`: the fuel is
sufficient. -/
theorem matchTotal_eq (a b : List Char) : matchTotal a b = matchTotalBody matchTotal a b := by
  match a with
  | [] =>
    show matchTotalF 0 [] b = matchTotalBody matchTotal [] b
    have : matchTotalBody matchTotal [] b = 0 := by
      unfold matchTotalBody
      simp [longestMatch]
    rw [this]
    rfl
  | x :: xs =>
    show matchTotalBody (matchTotalF xs.length) (x :: xs) b = matchTotalBody matchTotal (x :: xs) b
    apply matchTotalBody_congr
    intro a2 b2 ha2
    simp at ha2
    exact matchTotalF_eq xs.length a2 b2 (by omega)

theorem matchTotalF_le : ∀ (fuel : Nat) (a b : List Char),
    matchTotalF fuel a b ≤ a.length ∧ matchTotalF fuel a b ≤ b.length := by
  intro fuel
  induction fuel with
  | zero => intro a b; simp [matchTotalF]
  | succ f ih =>
    intro a b
    have hb := longestMatch_bounds a b
    show matchTotalBody (matchTotalF f) a b ≤ a.length ∧ matchTotalBody (matchTotalF f) a b ≤ b.length
    simp only [matchTotalBody]
    split_ifs with hk
    · simp
    · have h1 := ih (a.take (longestMatch a b).1) (b.take (longestMatch a b).2.1)
      have h2 := ih (a.drop ((longestMatch a b).1 + (longestMatch a b).2.2))
        (b.drop ((longestMatch a b).2.1 + (longestMatch a b).2.2))
      simp [List.length_take, List.length_drop] at h1 h2
      omega

/-- The total matched length never exceeds either input length. -/
theorem matchTotal_le (a b : List Char) :
    matchTotal a b ≤ a.length ∧ matchTotal a b ≤ b.length :=
  matchTotalF_le a.length a b

end Difflib

/-!
Claim theorems.
-/

namespace Scraper

/-- The record builder skips a container exactly when the resolved name
is empty. -/
theorem buildRecord_eq_none_iff (urljoin : String → String → String) (base_url : String)
    (nameSels priceSels urlSels : List String) (node : HNode) :
    buildRecord urljoin base_url nameSels priceSels urlSels node = none ↔
    _get_first_text node nameSels = "" := by
  simp only [buildRecord]
  split_ifs with h <;> simp [h]

end Scraper

/-- C1: for every document and rule set, `parse_products` fails with the
NoContainerMatch condition whenever the container selector matches zero
nodes; when containers do match, it fails with the EmptyResult
condition exactly when every matched container yields an empty
(stripped) name; and a successful run never returns an empty record
list. -/
theorem C1_parse_products_failure_modes
    (urljoin : String → String → String) (doc : Scraper.SDoc) (base_url : String)
    (rules : Scraper.Rules) :
    ((doc.css (Scraper.effItemSel rules)).isEmpty = true →
      Scraper.parse_products urljoin doc base_url rules = .error .noContainerMatch) ∧
    ((doc.css (Scraper.effItemSel rules)).isEmpty = false →
      (Scraper.parse_products urljoin doc base_url rules = .error .emptyResult ↔
        ∀ node ∈ doc.css (Scraper.effItemSel rules),
          Scraper._get_first_text node (Scraper.effNameSels rules) = "")) ∧
    (∀ l, Scraper.parse_products urljoin doc base_url rules = .ok l → l ≠ []) := by
  have key : (doc.css (Scraper.effItemSel rules)).filterMap
      (Scraper.buildRecord urljoin base_url (Scraper.effNameSels rules)
        (Scraper.effPriceSels rules) (Scraper.effUrlSels rules)) = [] ↔
      ∀ node ∈ doc.css (Scraper.effItemSel rules),
        Scraper._get_first_text node (Scraper.effNameSels rules) = "" := by
    rw [List.filterMap_eq_nil_iff]
    constructor
    · intro h node hn
      exact (Scraper.buildRecord_eq_none_iff _ _ _ _ _ _).mp (h node hn)
    · intro h node hn
      exact (Scraper.buildRecord_eq_none_iff _ _ _ _ _ _).mpr (h node hn)
  refine ⟨?_, ?_, ?_⟩
  · intro h
    unfold Scraper.parse_products
    simp [h]
  · intro h
    unfold Scraper.parse_products
    simp only [h, Bool.false_eq_true, if_false]
    by_cases hp : (doc.css (Scraper.effItemSel rules)).filterMap
        (Scraper.buildRecord urljoin base_url (Scraper.effNameSels rules)
          (Scraper.effPriceSels rules) (Scraper.effUrlSels rules)) = []
    · constructor
      · intro _
        exact key.mp hp
      · intro _
        simp [hp]
    · have : ((doc.css (Scraper.effItemSel rules)).filterMap
          (Scraper.buildRecord urljoin base_url (Scraper.effNameSels rules)
            (Scraper.effPriceSels rules) (Scraper.effUrlSels rules))).isEmpty = false := by
        simpa [List.isEmpty_iff] using hp
      simp only [this, Bool.false_eq_true, if_false]
      constructor
      · intro hc
        exact absurd hc (by simp)
      · intro hall
        exact absurd (key.mpr hall) hp
  · intro l hl
    simp only [Scraper.parse_products] at hl
    split_ifs at hl with h1 h2
    injection hl with h
    rw [← h]
    simpa [List.isEmpty_iff] using h2

/-- C1 witness: a document where the container selector matches nothing
fails with the NoContainerMatch condition. -/
theorem C1_witness :
    Scraper.parse_products (fun b _ => b) ⟨fun _ => []⟩ "https://shop.example"
      ⟨none, none, none, none, none⟩ = .error .noContainerMatch :=
  (C1_parse_products_failure_modes (fun b _ => b) ⟨fun _ => []⟩ "https://shop.example"
    ⟨none, none, none, none, none⟩).1 rfl

/-- C6: price normalization keeps only digits, commas and periods,
reads the comma as a decimal separator and parses the result, so
`"1 299,00 грн"` comes out as 1299; and for every container with a
usable name the record is produced regardless of the price parse, with
`price` the (possibly absent) parsed value and `raw_price` the retained
raw text. -/
theorem C6_price_normalization :
    Scraper._parse_price "1 299,00 грн" = some 1299 ∧
    ∀ (urljoin : String → String → String) (doc : Scraper.SDoc) (base_url : String)
      (rules : Scraper.Rules) (node : Scraper.HNode),
      node ∈ doc.css (Scraper.effItemSel rules) →
      Scraper._get_first_text node (Scraper.effNameSels rules) ≠ "" →
      ∃ l, Scraper.parse_products urljoin doc base_url rules = .ok l ∧
        ({ name := Scraper._get_first_text node (Scraper.effNameSels rules),
           url := if Scraper._find_link node (Scraper.effUrlSels rules) ≠ ""
                  then urljoin base_url (Scraper._find_link node (Scraper.effUrlSels rules))
                  else base_url,
           price := Scraper._parse_price (Scraper._get_first_text node (Scraper.effPriceSels rules)),
           raw_price := if Scraper._get_first_text node (Scraper.effPriceSels rules) = "" then none
                        else some (Scraper._get_first_text node (Scraper.effPriceSels rules)) }
          : Scraper.ParsedProduct) ∈ l := by
  constructor
  · simp only [Scraper._parse_price]
    rw [show (("1 299,00 грн".toList.filter
          (fun c => c.isDigit || c = ',' || c = '.')).map
          (fun c => if c = ',' then '.' else c)) = "1299.00".toList from by decide]
    unfold Scraper.pyFloat
    rw [if_pos (by decide)]
    rw [show PyStr.splitPred (fun x => x == '.') "1299.00".toList =
          [['1', '2', '9', '9'], ['0', '0']] from by decide]
    dsimp only
    rw [show Scraper.digitsToNat ['1', '2', '9', '9'] = 1299 from by decide,
        show Scraper.digitsToNat ['0', '0'] = 0 from by decide]
    norm_num
  · intro urljoin doc base_url rules node hmem hname
    have hrec : Scraper.buildRecord urljoin base_url (Scraper.effNameSels rules)
        (Scraper.effPriceSels rules) (Scraper.effUrlSels rules) node =
        some { name := Scraper._get_first_text node (Scraper.effNameSels rules),
               url := if Scraper._find_link node (Scraper.effUrlSels rules) ≠ ""
                      then urljoin base_url (Scraper._find_link node (Scraper.effUrlSels rules))
                      else base_url,
               price := Scraper._parse_price (Scraper._get_first_text node (Scraper.effPriceSels rules)),
               raw_price := if Scraper._get_first_text node (Scraper.effPriceSels rules) = "" then none
                            else some (Scraper._get_first_text node (Scraper.effPriceSels rules)) } := by
      simp only [Scraper.buildRecord]
      rw [if_neg hname]
    have hmemrec := List.mem_filterMap.mpr ⟨node, hmem, hrec⟩
    refine ⟨_, ?_, hmemrec⟩
    unfold Scraper.parse_products
    rw [if_neg (by simp only [List.isEmpty_iff]; exact List.ne_nil_of_mem hmem)]
    rw [if_neg (by simp only [List.isEmpty_iff]; exact List.ne_nil_of_mem hmemrec)]

/-- C6 witness: on a concrete card whose price text is
`"1 299,00 грн"`, extraction yields the record with stripped name,
parsed price 1299, and the raw price text retained. -/
theorem C6_witness :
    ∃ l, Scraper.parse_products (fun b _ => b) Fixtures.cardDoc "https://shop.example"
        Fixtures.emptyRules = .ok l ∧
      ({ name := "Item", url := "https://shop.example", price := some 1299,
         raw_price := some "1 299,00 грн" } : Scraper.ParsedProduct) ∈ l := by
  have h := (C6_price_normalization.2 (fun b _ => b) Fixtures.cardDoc "https://shop.example"
    Fixtures.emptyRules Fixtures.cardNode
    (by show Fixtures.cardNode ∈ [Fixtures.cardNode]; exact List.mem_singleton_self _)
    (by decide))
  rcases h with ⟨l, hl, hm⟩
  refine ⟨l, hl, ?_⟩
  have : ({ name := "Item", url := "https://shop.example", price := some 1299,
            raw_price := some "1 299,00 грн" } : Scraper.ParsedProduct) =
      { name := Scraper._get_first_text Fixtures.cardNode (Scraper.effNameSels Fixtures.emptyRules),
        url := if Scraper._find_link Fixtures.cardNode (Scraper.effUrlSels Fixtures.emptyRules) ≠ ""
               then "https://shop.example"
               else "https://shop.example",
        price := Scraper._parse_price
          (Scraper._get_first_text Fixtures.cardNode (Scraper.effPriceSels Fixtures.emptyRules)),
        raw_price := if Scraper._get_first_text Fixtures.cardNode (Scraper.effPriceSels Fixtures.emptyRules) = ""
                     then none
                     else some (Scraper._get_first_text Fixtures.cardNode
                       (Scraper.effPriceSels Fixtures.emptyRules)) } := by
    have hp : Scraper._get_first_text Fixtures.cardNode (Scraper.effPriceSels Fixtures.emptyRules) =
        "1 299,00 грн" := by decide
    have hn : Scraper._get_first_text Fixtures.cardNode (Scraper.effNameSels Fixtures.emptyRules) =
        "Item" := by decide
    have hu : Scraper._find_link Fixtures.cardNode (Scraper.effUrlSels Fixtures.emptyRules) = "" := by decide
    rw [hp, hn, hu]
    simp [C6_price_normalization.1]
  rw [this]
  exact hm

namespace Scraper

/-- A blocked or challenge response makes the attempt fail with one of
the two FetchBlocked-class conditions. -/
theorem fetchAttempt_blocked {r : HttpResponse} (h : isBlockedResp r = true) :
    fetchAttempt r = .error .fetchBlockedStatus ∨ fetchAttempt r = .error .fetchCaptcha := by
  unfold isBlockedResp at h
  unfold fetchAttempt
  split_ifs with h1 h2
  · left
    rfl
  · right
    rfl
  · simp [h1, h2] at h
  · simp [h1, h2] at h

/-- A successful attempt returns the body of a response that passed
both the status check and the challenge check. -/
theorem fetchAttempt_ok {r : HttpResponse} {t : String} (h : fetchAttempt r = .ok t) :
    t = r.text ∧ _looks_like_captcha t = false := by
  unfold fetchAttempt at h
  split_ifs at h with h1 h2 h3
  injection h with h
  subst h
  exact ⟨rfl, by simpa using h2⟩

end Scraper

/-- C7: a response with status 403, 429 or 503, or whose body carries a
bot-challenge marker, is never returned: after such a first response the
fetch retries exactly once (its outcome is that of the second attempt
alone); two blocked responses surface a FetchBlocked-class condition;
and any returned body is free of challenge markers. -/
theorem C7_fetch_blocked_retry (r1 r2 : Scraper.HttpResponse) :
    (Scraper.isBlockedResp r1 = true →
      Scraper.fetch_html r1 r2 = Scraper.fetchAttempt r2) ∧
    (Scraper.isBlockedResp r1 = true → Scraper.isBlockedResp r2 = true →
      ∃ e, Scraper.fetch_html r1 r2 = .error e ∧ Scraper.isFetchBlocked e = true) ∧
    (∀ t, Scraper.fetch_html r1 r2 = .ok t → Scraper._looks_like_captcha t = false) := by
  have hone : Scraper.isBlockedResp r1 = true →
      Scraper.fetch_html r1 r2 = Scraper.fetchAttempt r2 := by
    intro hb
    unfold Scraper.fetch_html
    rcases Scraper.fetchAttempt_blocked hb with h | h <;>
      rw [h] <;> cases Scraper.fetchAttempt r2 <;> rfl
  refine ⟨hone, ?_, ?_⟩
  · intro hb1 hb2
    rcases Scraper.fetchAttempt_blocked hb2 with h | h
    · exact ⟨Scraper.ScraperError.fetchBlockedStatus, by rw [hone hb1, h], rfl⟩
    · exact ⟨Scraper.ScraperError.fetchCaptcha, by rw [hone hb1, h], rfl⟩
  · intro t ht
    unfold Scraper.fetch_html at ht
    cases h1 : Scraper.fetchAttempt r1 with
    | ok t1 =>
      rw [h1] at ht
      injection ht with h
      rw [← h]
      exact (Scraper.fetchAttempt_ok h1).2
    | error e =>
      rw [h1] at ht
      cases h2 : Scraper.fetchAttempt r2 with
      | ok t2 =>
        rw [h2] at ht
        injection ht with h
        rw [← h]
        exact (Scraper.fetchAttempt_ok h2).2
      | error e2 =>
        rw [h2] at ht
        exact absurd ht (by simp)

/-- C7 witness: a pair of 403 responses is retried once and surfaces a
FetchBlocked-class condition. -/
theorem C7_witness :
    Scraper.fetch_html ⟨403, ""⟩ ⟨403, ""⟩ = Scraper.fetchAttempt ⟨403, ""⟩ ∧
    ∃ e, Scraper.fetch_html ⟨403, ""⟩ ⟨403, ""⟩ = .error e ∧ Scraper.isFetchBlocked e = true :=
  ⟨(C7_fetch_blocked_retry ⟨403, ""⟩ ⟨403, ""⟩).1 (by decide),
   (C7_fetch_blocked_retry ⟨403, ""⟩ ⟨403, ""⟩).2.1 (by decide) (by decide)⟩

/-- C2: when the initial scrape fails, `try_scrape` runs exactly the
single repair-and-retry pipeline (one re-fetch, one rule repair, one
extraction run), and a failure of that retried extraction is surfaced
to the caller unchanged — no further automatic retry exists. -/
theorem C2_try_scrape_single_retry (env : SelfHeal.Env) (url : String) (rules : Scraper.Rules)
    (e : Scraper.ScraperError)
    (h : SelfHeal.scrape_products env url rules = .error e) :
    SelfHeal.try_scrape env url rules = SelfHeal.repairRetry env url rules ∧
    ∀ html e2, Scraper.fetch_html env.firstB env.secondB = .ok html →
      Scraper.parse_products env.urljoin (env.parse html) url (env.fixRules html rules) = .error e2 →
      SelfHeal.try_scrape env url rules = .error e2 := by
  have h1 : SelfHeal.try_scrape env url rules = SelfHeal.repairRetry env url rules := by
    unfold SelfHeal.try_scrape
    rw [h]
    rfl
  refine ⟨h1, ?_⟩
  intro html e2 hf hp
  rw [h1]
  unfold SelfHeal.repairRetry
  rw [hf]
  dsimp only
  rw [hp]

/-- C2 witness: with every response blocked, the failed initial scrape
makes `try_scrape` equal to the single repair-and-retry pipeline. -/
theorem C2_witness :
    SelfHeal.try_scrape Fixtures.blockedEnv "https://shop.example" Fixtures.emptyRules =
      SelfHeal.repairRetry Fixtures.blockedEnv "https://shop.example" Fixtures.emptyRules :=
  (C2_try_scrape_single_retry Fixtures.blockedEnv "https://shop.example" Fixtures.emptyRules
    Scraper.ScraperError.fetchBlockedStatus (by rfl)).1

/-- C3: when extraction with the current rules already succeeds, the
self-heal coordinator returns those records with the rule set
unchanged. -/
theorem C3_try_scrape_idempotent (env : SelfHeal.Env) (url : String) (rules : Scraper.Rules)
    (items : List Scraper.ParsedProduct)
    (h : SelfHeal.scrape_products env url rules = .ok items) :
    SelfHeal.try_scrape env url rules = .ok (items, rules) := by
  unfold SelfHeal.try_scrape
  rw [h]

/-- C3 witness: a working environment and rule set pass through
`try_scrape` with the records extracted and the rules untouched. -/
theorem C3_witness :
    SelfHeal.try_scrape Fixtures.okEnv "https://shop.example" Fixtures.emptyRules =
      .ok ([{ name := "Item", url := "https://shop.example", price := none,
              raw_price := none }], Fixtures.emptyRules) :=
  C3_try_scrape_idempotent Fixtures.okEnv "https://shop.example" Fixtures.emptyRules
    [{ name := "Item", url := "https://shop.example", price := none, raw_price := none }]
    (by rfl)

/-- C4 counterexample: the scraper-side heuristic repair
(`rule_detector_ai._heuristic_rules`) replaces the name selector with
its `h2` probe result even though the previous name selector still
matches at least one node of the freshly analyzed page, so the claim
that every still-matching field keeps its selector fails on this
repairer. -/
theorem C4_counterexample :
    (Fixtures.repairDoc.css ".custom-title").isEmpty = false ∧
    Fixtures.repairPrev.name_selector = some ".custom-title" ∧
    (RuleDetector._heuristic_rules Fixtures.repairDoc (some Fixtures.repairPrev)).name_selector = "h2" ∧
    ("h2" : String) ≠ ".custom-title" :=
  ⟨rfl, rfl, rfl, by decide⟩

/-- C4 amended: the structural self-heal of `parserai/core.py` has the
claimed frame property — every field whose existing selector still
matches a node of the analyzed tree keeps its previous selector value,
and only fields whose selector no longer matches are re-scored (their
entry becomes the field-scorer result).  The scraper-side heuristic
repair does not have this property (see the counterexample). -/
theorem C4_self_heal_repairs_only_failed (root : Core.Node) (previous : Core.ParsingAlgorithm)
    (key sel : String) (hmem : (key, sel) ∈ previous.selectors) :
    ((Core.select_first root sel).isSome = true →
      (key, sel) ∈ (Core.self_heal_algorithm root previous).selectors) ∧
    ((Core.select_first root sel).isSome = false →
      (key, Core._find_best_selector root key) ∈ (Core.self_heal_algorithm root previous).selectors) := by
  constructor
  · intro h
    refine List.mem_map.mpr ⟨(key, sel), hmem, ?_⟩
    simp [h]
  · intro h
    refine List.mem_map.mpr ⟨(key, sel), hmem, ?_⟩
    simp [h]

/-- C4 witness: a still-matching selector survives the structural
self-heal unchanged. -/
theorem C4_witness :
    ("title", "div") ∈ (Core.self_heal_algorithm Fixtures.divRoot Fixtures.divAlgo).selectors :=
  (C4_self_heal_repairs_only_failed Fixtures.divRoot Fixtures.divAlgo "title" "div"
    (by decide)).1 (by rfl)

/-- C5: the self-heal confidence update of `core.py` violates the
claimed monotonicity and confirms the claimed bounds.  With the same
starting confidence (the 0.6 default), a repair leaving all five fields
unresolved (empty page) yields confidence 1, strictly above the 11/20
yielded by a repair resolving every field — the formula
`conf - 0.05 + 0.1 * len(warnings)` increases with the number of
unresolved fields.  The clamp to [0.3, 1.0] does hold for every repair. -/
theorem C5_confidence_not_monotone :
    (Core.self_heal_algorithm Fixtures.emptyRoot Fixtures.fiveAlgo).warnings.length = 5 ∧
    (Core.self_heal_algorithm Fixtures.divRoot Fixtures.fiveAlgo).warnings.length = 0 ∧
    (Core.self_heal_algorithm Fixtures.emptyRoot Fixtures.fiveAlgo).confidence = some 1 ∧
    (Core.self_heal_algorithm Fixtures.divRoot Fixtures.fiveAlgo).confidence = some (11 / 20) ∧
    ¬ ((1 : ℚ) ≤ 11 / 20) ∧
    ∀ (root : Core.Node) (previous : Core.ParsingAlgorithm),
      ∃ c : ℚ, (Core.self_heal_algorithm root previous).confidence = some c ∧
        3 / 10 ≤ c ∧ c ≤ 1 := by
  refine ⟨by decide, by decide, ?_, ?_, by norm_num, ?_⟩
  · show some (max (3 / 10 : ℚ) (min 1 (((none : Option ℚ).getD (6 / 10)) - 1 / 20 +
      (((Core.self_heal_algorithm Fixtures.emptyRoot Fixtures.fiveAlgo).warnings.length : ℚ)) / 10))) =
      some 1
    rw [show (Core.self_heal_algorithm Fixtures.emptyRoot Fixtures.fiveAlgo).warnings.length = 5
      from by decide]
    norm_num
  · show some (max (3 / 10 : ℚ) (min 1 (((none : Option ℚ).getD (6 / 10)) - 1 / 20 +
      (((Core.self_heal_algorithm Fixtures.divRoot Fixtures.fiveAlgo).warnings.length : ℚ)) / 10))) =
      some (11 / 20)
    rw [show (Core.self_heal_algorithm Fixtures.divRoot Fixtures.fiveAlgo).warnings.length = 0
      from by decide]
    norm_num
  · intro root previous
    refine ⟨_, rfl, le_max_left _ _, max_le (by norm_num) (min_le_left _ _)⟩

namespace Core

theorem interCount_comm (xs ys : List String) : interCount xs ys = interCount ys xs := by
  unfold interCount
  rw [List.toFinset_append, List.toFinset_append, Finset.union_comm]
  exact Finset.sum_congr rfl (fun t _ => Nat.min_comm _ _)

theorem unionCount_comm (xs ys : List String) : unionCount xs ys = unionCount ys xs := by
  unfold unionCount
  rw [List.toFinset_append, List.toFinset_append, Finset.union_comm]
  exact Finset.sum_congr rfl (fun t _ => Nat.max_comm _ _)

theorem interCount_le_unionCount (xs ys : List String) : interCount xs ys ≤ unionCount xs ys :=
  Finset.sum_le_sum (fun _ _ => le_trans (Nat.min_le_left _ _) (Nat.le_max_left _ _))

end Core

/-- C8 counterexample: the sequence-ratio similarity of `matcher_ai.py`
returns 1 (not 0) on two empty strings, and it is not symmetric — the
pair `"b ab"`, `"ab b"` gives 3/4 one way and 1/2 the other, matching
the asymmetric block choices of the difflib algorithm. -/
theorem C8_similarity_counterexample :
    Matcher._similarity "" "" = 1 ∧
    Matcher._similarity "b ab" "ab b" = 3 / 4 ∧
    Matcher._similarity "ab b" "b ab" = 1 / 2 ∧
    Matcher._similarity "b ab" "ab b" ≠ Matcher._similarity "ab b" "b ab" := by
  have h1 : Matcher._similarity "" "" = 1 := by
    unfold Matcher._similarity Difflib.calcRat
    norm_num [PyStr.pyLower]
  have h2 : Matcher._similarity "b ab" "ab b" = 3 / 4 := by
    unfold Matcher._similarity Difflib.calcRat
    rw [if_neg (by decide),
        show Difflib.matchTotal (PyStr.pyLower "b ab") (PyStr.pyLower "ab b") = 3 from by decide,
        show (PyStr.pyLower "b ab").length = 4 from by decide,
        show (PyStr.pyLower "ab b").length = 4 from by decide]
    norm_num
  have h3 : Matcher._similarity "ab b" "b ab" = 1 / 2 := by
    unfold Matcher._similarity Difflib.calcRat
    rw [if_neg (by decide),
        show Difflib.matchTotal (PyStr.pyLower "ab b") (PyStr.pyLower "b ab") = 2 from by decide,
        show (PyStr.pyLower "ab b").length = 4 from by decide,
        show (PyStr.pyLower "b ab").length = 4 from by decide]
    norm_num
  refine ⟨h1, h2, h3, ?_⟩
  rw [h2, h3]
  norm_num

/-- C8 amended: the token-multiset similarity of `parserai/core.py` is
symmetric, lies in [0, 1] and returns 0 whenever either argument is
empty; the sequence-ratio similarity of `matcher_ai.py` lies in [0, 1]
and returns 0 whenever exactly one argument is empty, but it is not
symmetric in general and returns 1 when both arguments are empty (see
the counterexample). -/
theorem C8_similarity_amended :
    (∀ a b : String, Core._similarity a b = Core._similarity b a) ∧
    (∀ a b : String, 0 ≤ Core._similarity a b ∧ Core._similarity a b ≤ 1) ∧
    (∀ b : String, Core._similarity "" b = 0 ∧ Core._similarity b "" = 0) ∧
    (∀ a b : String, 0 ≤ Matcher._similarity a b ∧ Matcher._similarity a b ≤ 1) ∧
    (∀ b : String, b ≠ "" → Matcher._similarity "" b = 0 ∧ Matcher._similarity b "" = 0) := by
  refine ⟨?_, ?_, ?_, ?_, ?_⟩
  · intro a b
    simp only [Core._similarity]
    rw [Core.interCount_comm, Core.unionCount_comm, Bool.or_comm]
  · intro a b
    simp only [Core._similarity]
    split_ifs with h1 h2
    · norm_num
    · norm_num
    · constructor
      · positivity
      · rw [div_le_one (by exact_mod_cast Nat.pos_of_ne_zero h2)]
        exact_mod_cast Core.interCount_le_unionCount _ _
  · intro b
    constructor
    · simp [Core._similarity, show Core._tokenize "" = [] from rfl]
    · simp [Core._similarity, show Core._tokenize "" = [] from rfl]
  · intro a b
    unfold Matcher._similarity Difflib.calcRat
    split_ifs with h
    · norm_num
    · have hM := Difflib.matchTotal_le (PyStr.pyLower a) (PyStr.pyLower b)
      have hpos : (0 : ℚ) < ((PyStr.pyLower a).length : ℚ) + ((PyStr.pyLower b).length : ℚ) := by
        have hp : 0 < (PyStr.pyLower a).length + (PyStr.pyLower b).length := Nat.pos_of_ne_zero h
        exact_mod_cast hp
      constructor
      · positivity
      · rw [div_le_one hpos]
        have h2M : 2 * Difflib.matchTotal (PyStr.pyLower a) (PyStr.pyLower b) ≤
            (PyStr.pyLower a).length + (PyStr.pyLower b).length := by omega
        exact_mod_cast h2M
  · intro b hb
    have hlen : (PyStr.pyLower b).length ≠ 0 := by
      cases b with
      | mk data =>
        cases data with
        | nil => exact absurd rfl hb
        | cons c cs => simp [PyStr.pyLower, String.toList]
    constructor
    · unfold Matcher._similarity Difflib.calcRat
      rw [if_neg (by simpa [PyStr.pyLower] using hlen)]
      rw [show Difflib.matchTotal (PyStr.pyLower "") (PyStr.pyLower b) = 0 from rfl]
      norm_num
    · have hM : Difflib.matchTotal (PyStr.pyLower b) (PyStr.pyLower "") = 0 :=
        Nat.le_zero.mp (by
          simpa [PyStr.pyLower] using
            (Difflib.matchTotal_le (PyStr.pyLower b) (PyStr.pyLower "")).2)
      unfold Matcher._similarity Difflib.calcRat
      rw [if_neg (by simpa [PyStr.pyLower] using hlen), hM]
      norm_num

/-- C8 witness: the sequence-ratio similarity returns 0 when exactly
one side is empty. -/
theorem C8_witness :
    Matcher._similarity "" "x" = 0 ∧ Matcher._similarity "x" "" = 0 :=
  C8_similarity_amended.2.2.2.2 "x" (by decide)

/-- C9: hierarchy grouping splits the URL path into segments and strips
a recognized leading locale segment (`ru`, `ua`, `uk`) before grouping;
concretely, `/ua/tools/drills` and `/tools/drills` fall under the same
top-level group key `tools`, with the following segment `drills` as one
nested tree level terminating in leaves named from the link texts. -/
theorem C9_locale_stripped_grouping :
    (∀ ps : List String, Fallback.localeStripped ("ru" :: ps) = ps ∧
      Fallback.localeStripped ("ua" :: ps) = ps ∧
      Fallback.localeStripped ("uk" :: ps) = ps) ∧
    Fallback.pathSegments "/ua/tools/drills" = ["ua", "tools", "drills"] ∧
    Fallback.pathSegments "/tools/drills" = ["tools", "drills"] ∧
    Fallback.build_category_groups
        [{ name := "Drills", url := "/ua/tools/drills" },
         { name := "Свердла", url := "/tools/drills" }] =
      [{ group_name := "tools",
         items := [CatTree.CatNode.mk "drills" none
           [CatTree.CatNode.mk "Drills" (some "/ua/tools/drills") [],
            CatTree.CatNode.mk "Свердла" (some "/tools/drills") []]] }] := by
  refine ⟨?_, by decide, by decide, by rfl⟩
  intro ps
  exact ⟨rfl, rfl, rfl⟩

namespace Scraper

theorem catStep_inv {urljoin : String → String → String} {doc : SDoc} {base_url : String}
    {ruleSet : List String} {rule : String} (hrule : rule ∈ ruleSet)
    {links : List (String × String)} {link : HNode} (hlink : link ∈ doc.css (PyStr.pyStrip rule))
    (h : ∀ p ∈ links, goodEntry urljoin doc base_url ruleSet p) :
    ∀ p ∈ catStep urljoin base_url links link, goodEntry urljoin doc base_url ruleSet p := by
  intro p hp
  simp only [catStep] at hp
  split_ifs at hp with hc
  · exact h p hp
  · rcases PyStr.mem_dictSet hp with hmem | heq
    · exact h p hmem
    · subst heq
      simp only [Bool.or_eq_true, decide_eq_true_eq, not_or] at hc
      exact ⟨rule, hrule, link, hlink, hc.1, rfl, by have := hc.2; omega, rfl⟩

theorem catLoop_inv (urljoin : String → String → String) (doc : SDoc) (base_url : String)
    (ruleSet : List String) :
    ∀ (sub : List String) (links : List (String × String)),
    (∀ r ∈ sub, r ∈ ruleSet) →
    (∀ p ∈ links, goodEntry urljoin doc base_url ruleSet p) →
    ∀ p ∈ catLoop urljoin doc base_url sub links, goodEntry urljoin doc base_url ruleSet p := by
  intro sub
  induction sub with
  | nil =>
    intro links _ h p hp
    exact h p hp
  | cons rule rest ih =>
    intro links hsub h p hp
    have hstep : ∀ p ∈ (doc.css (PyStr.pyStrip rule)).foldl (catStep urljoin base_url) links,
        goodEntry urljoin doc base_url ruleSet p :=
      PyStr.foldl_invariant (fun ls => ∀ p ∈ ls, goodEntry urljoin doc base_url ruleSet p)
        (catStep urljoin base_url) (doc.css (PyStr.pyStrip rule)) links h
        (fun b a ha hb => catStep_inv (hsub rule (by simp)) ha hb)
    simp only [catLoop] at hp
    split_ifs at hp with hc
    · exact ih _ (fun r hr => hsub r (by simp [hr])) hstep p hp
    · exact hstep p hp

end Scraper

namespace CategoryAI

open CatTree

theorem qualItems_inv {doc : Scraper.SDoc} {sel : String} (hsel : sel ∈ heurSelectors)
    {item : CatNode} (h : item ∈ qualItems (doc.css sel)) : goodItem doc item := by
  rcases List.mem_filterMap.mp h with ⟨link, hlink, hsome⟩
  dsimp only at hsome
  split_ifs at hsome with hc
  simp only [Bool.or_eq_true, decide_eq_true_eq, not_or] at hc
  injection hsome with hitem
  subst hitem
  exact ⟨sel, hsel, link, hlink, hc.1, rfl, by have := hc.2; omega, rfl⟩

theorem heurLoop_inv (doc : Scraper.SDoc) : ∀ (sub : List String) (acc : List CatNode),
    (∀ s ∈ sub, s ∈ heurSelectors) →
    (∀ item ∈ acc, goodItem doc item) →
    ∀ g ∈ heurLoop doc sub acc, ∀ item ∈ g.items, goodItem doc item := by
  intro sub
  induction sub with
  | nil =>
    intro acc _ hacc g hg item hitem
    simp only [heurLoop] at hg
    split_ifs at hg with hc
    · simp at hg
    · simp at hg
      subst hg
      exact hacc item hitem
  | cons sel rest ih =>
    intro acc hsub hacc g hg item hitem
    simp only [heurLoop] at hg
    have hacc2 : ∀ x ∈ acc ++ qualItems (doc.css sel), goodItem doc x := by
      intro x hx
      rcases List.mem_append.mp hx with hx | hx
      · exact hacc x hx
      · exact qualItems_inv (hsub sel (by simp)) hx
    split_ifs at hg with hc
    · exact ih _ (fun s hs => hsub s (by simp [hs])) hacc2 g hg item hitem
    · simp at hg
      subst hg
      exact hacc2 item hitem

end CategoryAI

/-- C10: in both category scans — the rule-driven `parse_categories`
and the heuristic fallback tree builder — every produced entry comes
from an anchor with a truthy href whose stripped text is at least three
characters long; the entry name is that stripped text (hence at least
three characters), so shorter-named links are silently excluded. -/
theorem C10_link_filtering :
    (∀ (urljoin : String → String → String) (doc : Scraper.SDoc) (base_url : String)
       (rules : Scraper.Rules) (cat : Scraper.Category),
       cat ∈ Scraper.parse_categories urljoin doc base_url rules →
       3 ≤ cat.name.length ∧
       Scraper.goodEntry urljoin doc base_url
         (PyStr.splitOnChar ',' (PyStr.orDefault rules.category_link Scraper.DEFAULT_category_link))
         (cat.url, cat.name)) ∧
    (∀ (doc : Scraper.SDoc) (g : CatTree.CatGroup) (item : CatTree.CatNode),
       g ∈ CategoryAI._heuristic_category_tree doc → item ∈ g.items →
       3 ≤ item.name.length ∧ CategoryAI.goodItem doc item) := by
  constructor
  · intro urljoin doc base_url rules cat hcat
    simp only [Scraper.parse_categories] at hcat
    rcases List.mem_map.mp hcat with ⟨p, hp, hcat⟩
    have hg := Scraper.catLoop_inv urljoin doc base_url
      (PyStr.splitOnChar ',' (PyStr.orDefault rules.category_link Scraper.DEFAULT_category_link))
      (PyStr.splitOnChar ',' (PyStr.orDefault rules.category_link Scraper.DEFAULT_category_link))
      [] (fun r hr => hr) (by simp) p hp
    subst hcat
    rcases hg with ⟨rule, hrule, link, hlink, hhref, hname, hlen, hurl⟩
    constructor
    · show 3 ≤ p.2.length
      rw [hname]
      exact hlen
    · exact ⟨rule, hrule, link, hlink, hhref, hname, hlen, hurl⟩
  · intro doc g item hg hitem
    have hgood := CategoryAI.heurLoop_inv doc CategoryAI.heurSelectors [] (fun s hs => hs)
      (by simp) g hg item hitem
    refine ⟨?_, hgood⟩
    rcases hgood with ⟨sel, _, link, _, _, hname, hlen, _⟩
    rw [hname]
    exact hlen

/-- C10 witness: on a navigation block with a qualifying link and a
short-named link, the produced category satisfies the inclusion
conditions (the short-named link contributes nothing). -/
theorem C10_witness :
    3 ≤ (Scraper.Category.mk "Tools" "https://s/tools").name.length ∧
    Scraper.goodEntry (fun b l => b ++ l) Fixtures.linksDoc "https://s"
      (PyStr.splitOnChar ','
        (PyStr.orDefault Fixtures.emptyRules.category_link Scraper.DEFAULT_category_link))
      ((Scraper.Category.mk "Tools" "https://s/tools").url,
       (Scraper.Category.mk "Tools" "https://s/tools").name) :=
  C10_link_filtering.1 (fun b l => b ++ l) Fixtures.linksDoc "https://s" Fixtures.emptyRules
    ⟨"Tools", "https://s/tools"⟩ (by decide)
